import Mathlib

/-!
# Verification of `tools/create_audio_messages.py` (TonUINO)

Shallow embedding of the batch text-to-speech conversion tool:

* the track-list parser (`Mode.run`, lines 59-70),
* the conversion loop with its error-threshold abort (`Mode.run`, lines 73-96),
* the Google HTTP backend (`GoogleMode.text_to_speech`, lines 132-158),
* the unimplemented backends (`AWSMode.text_to_speech`, `SayMode.text_to_speech`).

Python exceptions are modelled by the `Exn` structure carrying an exception
class; `Except Exn` models a computation that may raise.  The external
collaborators (the `requests` session and the filesystem) are passed in as
function parameters, so every theorem quantifies over their behaviour.
-/

/-- The Python exception classes that occur in the program.  `ioError`
stands for `IOError`/`OSError` (caught by the write step), `keyError` for
`KeyError` (a `LookupError` subclass, raised by a failed `dict` lookup),
`valueError` for `ValueError` (raised by tuple unpacking of `str.split`),
`typeError` for `TypeError`, `notImplementedError` for `NotImplementedError`,
and `genericExn` for a plain `Exception(...)`. -/
inductive ExnClass
  | ioError
  | keyError
  | valueError
  | typeError
  | notImplementedError
  | genericExn
deriving Repr, DecidableEq

/-- `LookupError` subclasses among the modelled classes: only `KeyError`. -/
def ExnClass.isLookupError : ExnClass → Bool
  | .keyError => true
  | _ => false

/-- A raised Python exception: its class and its message. -/
structure Exn where
  cls : ExnClass
  msg : String
deriving Repr, DecidableEq

/-- Audio bytes are modelled as a list of byte values. -/
abbrev Bytes := List Nat

/-! ## Base64 decoding (model of the Python library function `base64.b64decode`) -/

/-- Value of one character of the standard base64 alphabet. -/
def b64val (c : Char) : Option Nat :=
  if 'A' ≤ c ∧ c ≤ 'Z' then some (c.toNat - 65)
  else if 'a' ≤ c ∧ c ≤ 'z' then some (c.toNat - 71)
  else if '0' ≤ c ∧ c ≤ '9' then some (c.toNat + 4)
  else if c = '+' then some 62
  else if c = '/' then some 63
  else none

/-- Turn groups of four 6-bit values into three bytes; a trailing group of
three values gives two bytes and a trailing group of two gives one, which is
how `=` padding is realised after the padding characters are dropped. -/
def b64groups : List Nat → Bytes
  | a :: b :: c :: d :: rest =>
      (a * 4 + b / 16) :: (b % 16 * 16 + c / 4) :: (c % 4 * 64 + d) :: b64groups rest
  | [a, b, c] => [a * 4 + b / 16, b % 16 * 16 + c / 4]
  | [a, b] => [a * 4 + b / 16]
  | _ => []

/-- Model of `base64.b64decode`: characters outside the alphabet (including
the `=` padding) are discarded, then the 6-bit values are packed into bytes. -/
def b64decode (s : String) : Bytes :=
  b64groups (s.toList.filterMap b64val)

/-! ## Track-list parsing (`Mode.run`, lines 59-70) -/

/-- What one raw input line contributes:
`skip` for a line that is blank after `strip()` or starts with `#`,
`entry` for a well-formed `name|text` line (the stored name is `name + ".mp3"`),
`parseError` for the `ValueError` that `name, text = line.split('|')`
raises when the split does not yield exactly two parts. -/
inductive LineResult
  | skip
  | entry (name text : String)
  | parseError (e : Exn)
deriving Repr, DecidableEq

/-- The ASCII whitespace characters removed by the Python method `str.strip()`. -/
def pySpace (c : Char) : Bool :=
  c = ' ' || c = '\t' || c = '\n' || c = '\x0b' || c = '\x0c' || c = '\r'

/-- The Python method `str.strip()` on the underlying character list: whitespace is
removed from both ends, interior whitespace is untouched. -/
def pyStripChars (cs : List Char) : List Char :=
  ((cs.dropWhile pySpace).reverse.dropWhile pySpace).reverse

/-- The Python method `str.strip()`. -/
def pyStrip (s : String) : String :=
  ⟨pyStripChars s.toList⟩

/-- The Python method `str.split(d)` for a one-character separator `d` (here `'|'`):
splits at every occurrence of `d`, keeping empty parts, so the number of
parts is one more than the number of occurrences of `d`.  `acc` holds the
reversed characters of the part currently being read. -/
def pySplitChars (d : Char) : List Char → List Char → List (List Char)
  | [], acc => [acc.reverse]
  | c :: rest, acc =>
      if c = d then acc.reverse :: pySplitChars d rest []
      else pySplitChars d rest (c :: acc)

/-- One iteration of the parsing loop of `Mode.run`:

```python
line = line.strip()
if len(line) == 0: continue
if line.startswith("#"): continue
name, text = line.split('|')
elements.append((name + ".mp3", text))
```

`line.startswith("#")` is the head test since `"#"` is a single character;
the two-element tuple unpacking of `line.split('|')` raises `ValueError`
unless the split yields exactly two parts. -/
def processLine (line : String) : LineResult :=
  let l := pyStripChars line.toList
  if l.isEmpty then .skip
  else if l.head? = some '#' then .skip
  else
    match pySplitChars '|' l [] with
    | [name, text] => .entry (⟨name⟩ ++ ".mp3") ⟨text⟩
    | parts =>
        if parts.length > 2 then
          .parseError ⟨.valueError, "too many values to unpack (expected 2)"⟩
        else
          .parseError ⟨.valueError,
            "not enough values to unpack (expected 2, got " ++ toString parts.length ++ ")"⟩

/-- The whole parsing loop: builds the ordered `elements` list, or raises the
first `ValueError` (which propagates out of `run` uncaught). -/
def parseLines : List String → Except Exn (List (String × String))
  | [] => .ok []
  | line :: rest =>
    match processLine line with
    | .skip => parseLines rest
    | .entry n t => (parseLines rest).map (fun es => (n, t) :: es)
    | .parseError e => .error e

/-! ## The conversion loop (`Mode.run`, lines 73-96) -/

/-- The mutable state of the orchestrator during the loop: the error counter, the
names for which synthesis was invoked (in order), and the `(name, bytes)`
pairs successfully written (in order). -/
structure LoopState where
  errors : Nat
  attempted : List String
  written : List (String × Bytes)
deriving Repr, DecidableEq

/-- The state in which every run starts. -/
def initState : LoopState := ⟨0, [], []⟩

/-- How a run of the loop ends: `done` falls off the end of the `for` loop
(the process then exits 0), `aborted` is the `sys.exit(1)` taken when the
error threshold check fires, `uncaught` is an exception that propagates out
of `run` (terminating the process with a traceback, exit code 1). -/
inductive Outcome
  | done (s : LoopState)
  | aborted (s : LoopState)
  | uncaught (e : Exn) (s : LoopState)
deriving Repr, DecidableEq

/-- The final loop state carried by an outcome. -/
def Outcome.state : Outcome → LoopState
  | .done s => s
  | .aborted s => s
  | .uncaught _ s => s

/-- The process exit code produced by each outcome. -/
def exitCode : Outcome → Nat
  | .done _ => 0
  | .aborted _ => 1
  | .uncaught _ _ => 1

/-- The conversion loop of `Mode.run`:

```python
errors = 0
for i, e in enumerate(elements):
    if errors >= 3:
        print("Too many errors. Abort.")
        sys.exit(1)
    name, text = e
    try:
        print(...)
        mp3 = self.text_to_speech(text, self._language)
    except Exception as e:
        ...
        errors += 1
        continue
    target = join(self._outdir, name)
    try:
        with open(target, "wb") as out_file:
            out_file.write(mp3)
    except IOError as e:
        ...
        errors += 1
```

`synth` is the `text_to_speech` method of the backend; `write` is the filesystem write of
the named target file.  `except Exception` catches every exception class, the
write step catches only `IOError`; any other write exception propagates. -/
def convLoop (synth : String → String → Except Exn Bytes)
    (write : String → Bytes → Except Exn Unit) (lang : String) :
    List (String × String) → LoopState → Outcome
  | [], s => .done s
  | e :: rest, s =>
    if s.errors ≥ 3 then .aborted s
    else
      match synth e.2 lang with
      | .error _ =>
          convLoop synth write lang rest
            { s with errors := s.errors + 1, attempted := s.attempted ++ [e.1] }
      | .ok mp3 =>
        match write e.1 mp3 with
        | .error ex =>
            if ex.cls = .ioError then
              convLoop synth write lang rest
                { s with errors := s.errors + 1, attempted := s.attempted ++ [e.1] }
            else
              .uncaught ex { s with attempted := s.attempted ++ [e.1] }
        | .ok _ =>
            convLoop synth write lang rest
              { s with attempted := s.attempted ++ [e.1],
                       written := s.written ++ [(e.1, mp3)] }

/-- The states of the conversion loop, observed just before each threshold
check, plus the terminal state: the trace of `convLoop` over the same input. -/
def convTrace (synth : String → String → Except Exn Bytes)
    (write : String → Bytes → Except Exn Unit) (lang : String) :
    List (String × String) → LoopState → List LoopState
  | [], s => [s]
  | e :: rest, s =>
    if s.errors ≥ 3 then [s]
    else
      match synth e.2 lang with
      | .error _ =>
          s :: convTrace synth write lang rest
            { s with errors := s.errors + 1, attempted := s.attempted ++ [e.1] }
      | .ok mp3 =>
        match write e.1 mp3 with
        | .error ex =>
            if ex.cls = .ioError then
              s :: convTrace synth write lang rest
                { s with errors := s.errors + 1, attempted := s.attempted ++ [e.1] }
            else
              [s, { s with attempted := s.attempted ++ [e.1] }]
        | .ok _ =>
            s :: convTrace synth write lang rest
              { s with attempted := s.attempted ++ [e.1],
                       written := s.written ++ [(e.1, mp3)] }

/-- `Mode.run` after the (external) input-file and output-directory existence
checks: parse the whole input into `elements`, then run the conversion loop.
A `ValueError` raised during parsing propagates before any entry is
attempted. -/
def Mode.run (synth : String → String → Except Exn Bytes)
    (write : String → Bytes → Except Exn Unit) (lang : String)
    (lines : List String) : Outcome :=
  match parseLines lines with
  | .error e => .uncaught e initState
  | .ok elements => convLoop synth write lang elements initState

/-! ## The Google HTTP backend (`GoogleMode`, lines 98-158) -/

/-- A voice entry of `GoogleMode.voice_by_lang`: the regional language code
and the voice name. -/
structure Voice where
  languageCode : String
  name : String
deriving Repr, DecidableEq

/-- `GoogleMode.target_url` (line 100). -/
def GoogleMode.target_url : String :=
  "https://texttospeech.googleapis.com/v1beta1/text:synthesize"

/-- The static language-to-voice table `GoogleMode.voice_by_lang`
(lines 101-104), modelled as an association list. -/
def GoogleMode.voice_by_lang : List (String × Voice) :=
  [("de", ⟨"de-DE", "de-DE-Wavenet-C"⟩),
   ("en", ⟨"en-US", "en-US-Wavenet-D"⟩)]

/-- The Python `dict` lookup `GoogleMode.voice_by_lang[lang]` (line 142):
`none` models the `KeyError` raised for an absent key. -/
def voiceLookup (lang : String) : Option Voice :=
  (GoogleMode.voice_by_lang.find? (fun p => p.1 == lang)).map (fun p => p.2)

/-- The outgoing request assembled by `GoogleMode.text_to_speech`
(lines 133-145): the fixed audio configuration, the resolved voice, the
input text, the API key query parameter and the headers. -/
structure TTSRequest where
  url : String
  key : String
  audioEncoding : String
  speakingRate : Rat
  pitch : Rat
  sampleRateHertz : Nat
  effectsProfileId : List String
  voice : Voice
  text : String
  contentType : String
  charset : String
deriving Repr, DecidableEq

/-- The request value built for a given key, resolved voice and text. -/
def googleRequest (key : String) (voice : Voice) (text : String) : TTSRequest :=
  { url := GoogleMode.target_url
    key := key
    audioEncoding := "MP3"
    speakingRate := 1
    pitch := 2
    sampleRateHertz := 44100
    effectsProfileId := ["small-bluetooth-speaker-class-device"]
    voice := voice
    text := text
    contentType := "application/json"
    charset := "utf-8" }

/-- The response of the transport collaborator: the HTTP status code and the
parsed JSON object (string fields only, which is all the code reads). -/
structure TTSResponse where
  status_code : Nat
  json : List (String × String)
deriving Repr, DecidableEq

/-- Membership test and read of a JSON object field, modelling
`"audioContent" in js` and `js["audioContent"]` (lines 155-158). -/
def jsonLookup (js : List (String × String)) (k : String) : Option String :=
  (js.find? (fun p => p.1 == k)).map (fun p => p.2)

/-- `GoogleMode.text_to_speech` (lines 132-158).  `post` is the HTTP session
(`self._session.post`), a collaborator mapping the outgoing request to a
response; `key` is the API key.

```python
data = { "audioConfig": {...}, "voice": GoogleMode.voice_by_lang[lang],
         "input": { "text": text } }
r = self._session.post(target_url, headers=headers, params=params, json=data)
if r.status_code != requests.codes.ok:
    ...
    raise Exception("Request failed with status: {}".format(r.status_code))
js = r.json()
if not "audioContent" in js:
    raise Exception("audioContent not in the response json")
return base64.b64decode(js["audioContent"])
```

The `dict` lookup of the voice happens while `data` is built, before any
request is sent, and raises `KeyError` for an unmapped language;
`requests.codes.ok` is 200. -/
def GoogleMode.text_to_speech (post : TTSRequest → TTSResponse) (key : String)
    (text lang : String) : Except Exn Bytes :=
  match voiceLookup lang with
  | none => .error ⟨.keyError, lang⟩
  | some voice =>
    let r := post (googleRequest key voice text)
    if r.status_code ≠ 200 then
      .error ⟨.genericExn, "Request failed with status: " ++ toString r.status_code⟩
    else
      match jsonLookup r.json "audioContent" with
      | none => .error ⟨.genericExn, "audioContent not in the response json"⟩
      | some b64 => .ok (b64decode b64)

/-! ## The unimplemented backends (`AWSMode`, `SayMode`) -/

/-- The static table `AWSMode.voice_by_lang` (lines 163-166). -/
def AWSMode.voice_by_lang : List (String × String) :=
  [("de", "Vicki"), ("en", "Joanna")]

/-- The static table `SayMode.voice_by_lang` (lines 192-195). -/
def SayMode.voice_by_lang : List (String × String) :=
  [("de", "Anna"), ("en", "Samantha")]

/-- The message of the `TypeError` raised by calling the `NotImplemented`
sentinel. -/
def notImplementedTypeErrorMsg : String :=
  "NotImplementedType object is not callable"

/-- `AWSMode.text_to_speech` (lines 186-187) is `raise NotImplemented()`.
In Python 3 the `NotImplemented` sentinel is not callable, so evaluating the
expression `NotImplemented()` raises `TypeError` — the `raise` statement
itself is never reached, and no `NotImplementedError` is involved.  The call
therefore always fails, but with a `TypeError`. -/
def AWSMode.text_to_speech (text lang : String) : Except Exn Bytes :=
  .error ⟨.typeError, notImplementedTypeErrorMsg⟩

/-- `SayMode.text_to_speech` (lines 215-216): same body as
`AWSMode.text_to_speech`, hence the same `TypeError`. -/
def SayMode.text_to_speech (text lang : String) : Except Exn Bytes :=
  .error ⟨.typeError, notImplementedTypeErrorMsg⟩

/-- The base `Mode.text_to_speech` (lines 47-48): also `raise NotImplemented()`. -/
def Mode.text_to_speech (text lang : String) : Except Exn Bytes :=
  .error ⟨.typeError, notImplementedTypeErrorMsg⟩

/-! ## Concrete collaborators used to instantiate theorems -/

/-- A backend whose every call raises a plain `Exception`. -/
def synthBoom : String → String → Except Exn Bytes :=
  fun _ _ => .error ⟨.genericExn, "boom"⟩

/-- A backend returning fixed bytes for every text. -/
def synthConst : String → String → Except Exn Bytes :=
  fun _ _ => .ok [1, 2, 3]

/-- A filesystem write that always succeeds. -/
def writeOk : String → Bytes → Except Exn Unit :=
  fun _ _ => .ok ()

/-- A filesystem write that raises an exception that is not an `IOError`. -/
def writeTypeErr : String → Bytes → Except Exn Unit :=
  fun _ _ => .error ⟨.typeError, "bad write"⟩

/-- An HTTP session that answers status 500 with an empty body. -/
def postStatus500 : TTSRequest → TTSResponse :=
  fun _ => ⟨500, []⟩

/-- An HTTP session that answers status 200 with a JSON body lacking the
`audioContent` field. -/
def postNoAudio : TTSRequest → TTSResponse :=
  fun _ => ⟨200, [("other", "x")]⟩

/-- An HTTP session that answers status 200 with base64 `audioContent`. -/
def postAudio : TTSRequest → TTSResponse :=
  fun _ => ⟨200, [("audioContent", "aGk=")]⟩

/-- A line on which the parser raises: non-blank after stripping, not a
comment, and its split on the delimiter does not have exactly two parts. -/
def malformedLine (line : String) : Bool :=
  !(pyStripChars line.toList).isEmpty &&
    (pyStripChars line.toList).head? != some '#' &&
    (pySplitChars '|' (pyStripChars line.toList) []).length != 2

/-- Recognises the outcome of a run that died of an uncaught `ValueError`
while still in the initial state: nothing attempted, nothing written. -/
def isValueErrorUncaught : Outcome → Bool
  | .uncaught e s => e.cls == .valueError && s == initState
  | _ => false

/-! ## General lemmas about the conversion loop -/

/-- If the loop aborts, the threshold had been reached and at least one entry
was left unattempted (the abort happens at the check that precedes it). -/
theorem convLoop_aborted_inv (synth : String → String → Except Exn Bytes)
    (write : String → Bytes → Except Exn Unit) (lang : String) :
    ∀ (es : List (String × String)) (s s' : LoopState),
      convLoop synth write lang es s = .aborted s' →
      3 ≤ s'.errors ∧ s'.attempted.length < s.attempted.length + es.length := by
  intro es
  induction es with
  | nil =>
    intro s s' h
    simp [convLoop] at h
  | cons e rest ih =>
    intro s s' h
    rw [convLoop] at h
    by_cases hge : s.errors ≥ 3
    · rw [if_pos hge] at h
      cases h
      exact ⟨hge, by simp⟩
    · rw [if_neg hge] at h
      cases hs : synth e.2 lang with
      | error ex =>
        rw [hs] at h
        have := ih _ _ h
        simp at this
        exact ⟨this.1, by simp; omega⟩
      | ok mp3 =>
        rw [hs] at h
        dsimp only at h
        cases hw : write e.1 mp3 with
        | error ex =>
          rw [hw] at h
          dsimp only at h
          by_cases hio : ex.cls = .ioError
          · rw [if_pos hio] at h
            have := ih _ _ h
            simp at this
            exact ⟨this.1, by simp; omega⟩
          · rw [if_neg hio] at h
            cases h
        | ok u =>
          rw [hw] at h
          dsimp only at h
          have := ih _ _ h
          simp at this
          exact ⟨this.1, by simp; omega⟩

/-- The error counter of the final state never exceeds 3 when the loop is
started below (or at) the threshold. -/
theorem convLoop_errors_le (synth : String → String → Except Exn Bytes)
    (write : String → Bytes → Except Exn Unit) (lang : String) :
    ∀ (es : List (String × String)) (s : LoopState), s.errors ≤ 3 →
      (convLoop synth write lang es s).state.errors ≤ 3 := by
  intro es
  induction es with
  | nil =>
    intro s hs
    simpa [convLoop, Outcome.state] using hs
  | cons e rest ih =>
    intro s hs
    rw [convLoop]
    by_cases hge : s.errors ≥ 3
    · rw [if_pos hge]
      simpa [Outcome.state] using hs
    · rw [if_neg hge]
      cases hsyn : synth e.2 lang with
      | error ex =>
        exact ih _ (by simp; omega)
      | ok mp3 =>
        dsimp only
        cases hw : write e.1 mp3 with
        | error ex =>
          dsimp only
          by_cases hio : ex.cls = .ioError
          · rw [if_pos hio]
            exact ih _ (by simp; omega)
          · rw [if_neg hio]
            simpa [Outcome.state] using hs
        | ok u =>
          exact ih _ (by simpa using hs)

/-- The trace starts at the initial state. -/
theorem convTrace_head (synth : String → String → Except Exn Bytes)
    (write : String → Bytes → Except Exn Unit) (lang : String) :
    ∀ (es : List (String × String)) (s : LoopState),
      (convTrace synth write lang es s).head? = some s := by
  intro es s
  cases es with
  | nil => rfl
  | cons e rest =>
    rw [convTrace]
    by_cases hge : s.errors ≥ 3
    · rw [if_pos hge]
      rfl
    · rw [if_neg hge]
      cases hsyn : synth e.2 lang with
      | error ex => rfl
      | ok mp3 =>
        dsimp only
        cases hw : write e.1 mp3 with
        | error ex =>
          dsimp only
          by_cases hio : ex.cls = .ioError
          · rw [if_pos hio]
            rfl
          · rw [if_neg hio]
            rfl
        | ok u => rfl

/-- The trace ends at the final state of the loop. -/
theorem convTrace_getLast (synth : String → String → Except Exn Bytes)
    (write : String → Bytes → Except Exn Unit) (lang : String) :
    ∀ (es : List (String × String)) (s : LoopState),
      (convTrace synth write lang es s).getLast? =
        some (convLoop synth write lang es s).state := by
  intro es
  induction es with
  | nil => intro s; rfl
  | cons e rest ih =>
    intro s
    rw [convTrace, convLoop]
    by_cases hge : s.errors ≥ 3
    · rw [if_pos hge, if_pos hge]
      rfl
    · rw [if_neg hge, if_neg hge]
      cases hsyn : synth e.2 lang with
      | error ex =>
        dsimp only
        rw [List.getLast?_cons, ih]
        rfl
      | ok mp3 =>
        dsimp only
        cases hw : write e.1 mp3 with
        | error ex =>
          dsimp only
          by_cases hio : ex.cls = .ioError
          · rw [if_pos hio, if_pos hio, List.getLast?_cons, ih]
            rfl
          · rw [if_neg hio, if_neg hio]
            rfl
        | ok u =>
          dsimp only
          rw [List.getLast?_cons, ih]
          rfl

/-- Every state observed during the loop keeps the error counter at or
below 3 when the loop starts at or below 3. -/
theorem convTrace_errors_le (synth : String → String → Except Exn Bytes)
    (write : String → Bytes → Except Exn Unit) (lang : String) :
    ∀ (es : List (String × String)) (s : LoopState), s.errors ≤ 3 →
      ∀ t ∈ convTrace synth write lang es s, t.errors ≤ 3 := by
  intro es
  induction es with
  | nil =>
    intro s hs t ht
    rw [convTrace] at ht
    simp at ht
    exact ht ▸ hs
  | cons e rest ih =>
    intro s hs t ht
    rw [convTrace] at ht
    by_cases hge : s.errors ≥ 3
    · rw [if_pos hge] at ht
      simp at ht
      exact ht ▸ hs
    · rw [if_neg hge] at ht
      cases hsyn : synth e.2 lang with
      | error ex =>
        rw [hsyn] at ht
        dsimp only at ht
        rcases List.mem_cons.mp ht with h | h
        · exact h ▸ hs
        · exact ih _ (by simp; omega) t h
      | ok mp3 =>
        rw [hsyn] at ht
        dsimp only at ht
        cases hw : write e.1 mp3 with
        | error ex =>
          rw [hw] at ht
          dsimp only at ht
          by_cases hio : ex.cls = .ioError
          · rw [if_pos hio] at ht
            rcases List.mem_cons.mp ht with h | h
            · exact h ▸ hs
            · exact ih _ (by simp; omega) t h
          · rw [if_neg hio] at ht
            rcases List.mem_cons.mp ht with h | h
            · exact h ▸ hs
            · simp at h
              simpa [h] using hs
        | ok u =>
          rw [hw] at ht
          dsimp only at ht
          rcases List.mem_cons.mp ht with h | h
          · exact h ▸ hs
          · exact ih _ (by simpa using hs) t h

/-- Between two consecutive observed states: the first is below the
threshold (an attempt only starts when the check passed, so the counter is
at most 2 there), and the attempt raises the counter by at most one. -/
theorem convTrace_chain (synth : String → String → Except Exn Bytes)
    (write : String → Bytes → Except Exn Unit) (lang : String) :
    ∀ (es : List (String × String)) (s : LoopState),
      List.Chain'
        (fun a b => a.errors ≤ 2 ∧ a.errors ≤ b.errors ∧ b.errors ≤ a.errors + 1)
        (convTrace synth write lang es s) := by
  intro es
  induction es with
  | nil =>
    intro s
    rw [convTrace]
    simp
  | cons e rest ih =>
    intro s
    rw [convTrace]
    by_cases hge : s.errors ≥ 3
    · rw [if_pos hge]
      simp
    · rw [if_neg hge]
      have hs2 : s.errors ≤ 2 := by omega
      cases hsyn : synth e.2 lang with
      | error ex =>
        dsimp only
        rw [List.chain'_cons']
        refine ⟨?_, ih _⟩
        intro b hb
        rw [convTrace_head] at hb
        cases hb
        exact ⟨hs2, by simp, by simp⟩
      | ok mp3 =>
        dsimp only
        cases hw : write e.1 mp3 with
        | error ex =>
          dsimp only
          by_cases hio : ex.cls = .ioError
          · rw [if_pos hio]
            rw [List.chain'_cons']
            refine ⟨?_, ih _⟩
            intro b hb
            rw [convTrace_head] at hb
            cases hb
            exact ⟨hs2, by simp, by simp⟩
          · rw [if_neg hio]
            simp [hs2]
        | ok u =>
          rw [List.chain'_cons']
          refine ⟨?_, ih _⟩
          intro b hb
          rw [convTrace_head] at hb
          cases hb
          exact ⟨hs2, by simp, by simp⟩

/-- An uncaught exception can only come out of the write step: its class is
not `IOError` (those are caught), and it was returned by `write` on bytes
that the backend successfully synthesized. -/
theorem convLoop_uncaught_inv (synth : String → String → Except Exn Bytes)
    (write : String → Bytes → Except Exn Unit) (lang : String) :
    ∀ (es : List (String × String)) (s : LoopState) (ex : Exn) (s' : LoopState),
      convLoop synth write lang es s = .uncaught ex s' →
      ex.cls ≠ .ioError ∧
        ∃ name text mp3, synth text lang = .ok mp3 ∧ write name mp3 = .error ex := by
  intro es
  induction es with
  | nil =>
    intro s ex s' h
    simp [convLoop] at h
  | cons e rest ih =>
    intro s ex s' h
    rw [convLoop] at h
    by_cases hge : s.errors ≥ 3
    · rw [if_pos hge] at h
      cases h
    · rw [if_neg hge] at h
      cases hsyn : synth e.2 lang with
      | error ex2 =>
        rw [hsyn] at h
        dsimp only at h
        exact ih _ _ _ h
      | ok mp3 =>
        rw [hsyn] at h
        dsimp only at h
        cases hw : write e.1 mp3 with
        | error ex2 =>
          rw [hw] at h
          dsimp only at h
          by_cases hio : ex2.cls = .ioError
          · rw [if_pos hio] at h
            exact ih _ _ _ h
          · rw [if_neg hio] at h
            cases h
            exact ⟨hio, e.1, e.2, mp3, hsyn, hw⟩
        | ok u =>
          rw [hw] at h
          dsimp only at h
          exact ih _ _ _ h

/-! ## General lemmas about splitting and parsing -/

/-- Splitting a delimiter-free suffix yields a single part. -/
theorem pySplitChars_no_delim (d : Char) :
    ∀ (cs acc : List Char), d ∉ cs →
      pySplitChars d cs acc = [acc.reverse ++ cs] := by
  intro cs
  induction cs with
  | nil =>
    intro acc h
    simp [pySplitChars]
  | cons c rest ih =>
    intro acc h
    rw [pySplitChars]
    rw [if_neg (by simp at h; exact fun hc => h.1 hc.symm)]
    rw [ih _ (by simp at h; exact h.2)]
    simp

/-- Splitting a list with a single delimiter occurrence yields exactly the
part before and the part after it. -/
theorem pySplitChars_single (d : Char) :
    ∀ (a : List Char) (acc b : List Char), d ∉ a → d ∉ b →
      pySplitChars d (a ++ d :: b) acc = [acc.reverse ++ a, b] := by
  intro a
  induction a with
  | nil =>
    intro acc b _ hb
    rw [List.nil_append, pySplitChars, if_pos rfl, pySplitChars_no_delim d b [] hb]
    simp
  | cons c rest ih =>
    intro acc b ha hb
    rw [List.cons_append, pySplitChars]
    rw [if_neg (by simp at ha; exact fun hc => ha.1 hc.symm)]
    rw [ih _ _ (by simp at ha; exact ha.2) hb]
    simp

theorem processLine_parseError_cls (line : String) (e : Exn)
    (h : processLine line = .parseError e) : e.cls = .valueError := by
  simp only [processLine] at h
  split at h
  · cases h
  · split at h
    · cases h
    · split at h
      · cases h
      · split at h
        · cases h
          rfl
        · cases h
          rfl


theorem processLine_malformed (line : String) (h : malformedLine line = true) :
    ∃ e, processLine line = .parseError e := by
  simp only [malformedLine, Bool.and_eq_true, bne_iff_ne, ne_eq,
    Bool.not_eq_true', List.isEmpty_eq_false] at h
  obtain ⟨⟨h1, h2⟩, h3⟩ := h
  simp only [processLine]
  rw [if_neg (by simpa [String.toList] using h1), if_neg h2]
  cases hsp : pySplitChars '|' (pyStripChars line.toList) [] with
  | nil =>
    dsimp only
    exact ⟨_, by rw [if_neg (by simp)]⟩
  | cons p ps =>
    cases ps with
    | nil =>
      dsimp only
      exact ⟨_, by rw [if_neg (by simp)]⟩
    | cons q qs =>
      cases qs with
      | nil =>
        rw [hsp] at h3
        simp at h3
      | cons r rs =>
        dsimp only
        exact ⟨_, by rw [if_pos (by simp only [List.length_cons]; omega)]⟩

/-- If some input line is malformed, parsing the whole file raises a
`ValueError`, no matter where the line sits. -/
theorem parseLines_malformed :
    ∀ (lines : List String), (∃ l ∈ lines, malformedLine l = true) →
      ∃ e, parseLines lines = .error e ∧ e.cls = .valueError := by
  intro lines
  induction lines with
  | nil =>
    intro h
    simp at h
  | cons line rest ih =>
    intro h
    by_cases hm : malformedLine line = true
    · obtain ⟨e, he⟩ := processLine_malformed line hm
      exact ⟨e, by rw [parseLines, he], processLine_parseError_cls line e he⟩
    · have hrest : ∃ l ∈ rest, malformedLine l = true := by
        rcases h with ⟨l, hl, hml⟩
        rcases List.mem_cons.mp hl with rfl | hl2
        · exact absurd hml hm
        · exact ⟨l, hl2, hml⟩
      obtain ⟨e, he, hcls⟩ := ih hrest
      rw [parseLines]
      cases hp : processLine line with
      | skip => exact ⟨e, he, hcls⟩
      | entry n t =>
        refine ⟨e, ?_, hcls⟩
        dsimp only
        rw [he]
        rfl
      | parseError e2 =>
        exact ⟨e2, rfl, processLine_parseError_cls line e2 hp⟩

/-! ## The claims -/

/-- Claim C7: parsing the four lines `foo|Hello world`, `# comment`, the
empty line and `bar|Second` yields exactly the entries
`("foo.mp3", "Hello world")` and `("bar.mp3", "Second")`, in input order;
the comment and the blank line produce no entries. -/
theorem claim_C7_parse_example :
    parseLines ["foo|Hello world", "# comment", "", "bar|Second"] =
      .ok [("foo.mp3", "Hello world"), ("bar.mp3", "Second")] := rfl

/-- Claim C6 (code bug): both unimplemented backends always fail — never a
silent no-op — but the exception is a `TypeError` (the `NotImplemented`
sentinel is not callable), not a failure whose kind says "not implemented":
the claimed `NotImplementedError`-style failure is what the code plainly
meant (`raise NotImplementedError()`), yet `raise NotImplemented()` is what
it says. -/
theorem claim_C6_unimplemented_raise_type_error :
    AWSMode.text_to_speech "hello" "de" =
      .error ⟨.typeError, notImplementedTypeErrorMsg⟩ ∧
    SayMode.text_to_speech "hello" "de" =
      .error ⟨.typeError, notImplementedTypeErrorMsg⟩ ∧
    (⟨.typeError, notImplementedTypeErrorMsg⟩ : Exn).cls ≠ .notImplementedError :=
  ⟨rfl, rfl, by decide⟩

/-- Claim C3 (counterexample): the text of an entry is not the verbatim
remainder of the original line after the delimiter — for the line
`"foo|x "` the parser yields text `"x"`, not `"x "`: `line.strip()` runs
before the split, so trailing whitespace of the remainder is removed. -/
theorem claim_C3_counterexample :
    processLine "foo|x " = .entry "foo.mp3" "x" ∧
    processLine "foo|x " ≠ .entry "foo.mp3" "x " := by
  constructor
  · decide
  · decide

/-- Claim C3 (amended): for a line whose *stripped* form is
`name ++ "|" ++ text` with exactly one delimiter, non-blank and not a
comment, the parser yields the entry `(name ++ ".mp3", text)` — `name` and
`text` are the pieces of the whitespace-stripped line, so interior
whitespace (including whitespace adjacent to the delimiter) survives while
line-boundary whitespace does not. -/
theorem claim_C3_parser_entry (line : String) (name text : List Char)
    (hstrip : pyStripChars line.toList = name ++ '|' :: text)
    (hname : '|' ∉ name) (htext : '|' ∉ text)
    (hhash : name.head? ≠ some '#') :
    processLine line = .entry (⟨name⟩ ++ ".mp3") ⟨text⟩ := by
  have hsplit : pySplitChars '|' (name ++ '|' :: text) [] = [name, text] := by
    simpa using pySplitChars_single '|' name [] text hname htext
  have hne : ¬ ((name ++ '|' :: text).isEmpty = true) := by
    cases name <;> simp
  have hh : ¬ ((name ++ '|' :: text).head? = some '#') := by
    cases name with
    | nil => simp
    | cons c cs =>
      simp only [List.cons_append, List.head?_cons]
      intro hc
      exact hhash (by simpa using hc)
  simp only [processLine]
  rw [hstrip, if_neg hne, if_neg hh, hsplit]

/-- Claim C3 witness: the stripped line keeps the space after the delimiter
but loses the trailing one. -/
theorem claim_C3_parser_entry_witness :
    processLine " foo| bar " = .entry "foo.mp3" " bar" :=
  claim_C3_parser_entry " foo| bar " ['f', 'o', 'o'] [' ', 'b', 'a', 'r']
    (by decide) (by decide) (by decide) (by decide)

/-- Claim C2: with more than 3 entries and a backend failing on every call,
the loop attempts exactly the first three entries (each failure adding one
error), then aborts: entries after the third are never attempted and no
file is ever written. -/
theorem claim_C2_three_failures_abort
    (synth : String → String → Except Exn Bytes)
    (write : String → Bytes → Except Exn Unit) (lang : String)
    (e1 e2 e3 e4 : String × String) (rest : List (String × String))
    (hfail : ∀ t l, ∃ ex, synth t l = .error ex) :
    convLoop synth write lang (e1 :: e2 :: e3 :: e4 :: rest) initState =
      .aborted ⟨3, [e1.1, e2.1, e3.1], []⟩ := by
  obtain ⟨x1, h1⟩ := hfail e1.2 lang
  obtain ⟨x2, h2⟩ := hfail e2.2 lang
  obtain ⟨x3, h3⟩ := hfail e3.2 lang
  simp [convLoop, initState, h1, h2, h3]

/-- Claim C2 witness: a concrete four-entry run with an always-failing
backend aborts after the first three entries. -/
theorem claim_C2_three_failures_abort_witness :
    convLoop synthBoom writeOk "de"
      [("a.mp3", "x"), ("b.mp3", "y"), ("c.mp3", "z"), ("d.mp3", "w")] initState =
      .aborted ⟨3, ["a.mp3", "b.mp3", "c.mp3"], []⟩ :=
  claim_C2_three_failures_abort synthBoom writeOk "de" _ _ _ _ []
    (fun t l => ⟨⟨.genericExn, "boom"⟩, rfl⟩)

/-- Claim C4: for a mapped language, the HTTP backend call fails with an
error carrying the status code whenever the response status is not the
success status 200; on status 200 without an `audioContent` field it fails
with the malformed-response error; otherwise it returns the base64-decoded
bytes of that field. -/
theorem claim_C4_http_response_handling (post : TTSRequest → TTSResponse)
    (key text lang : String) (voice : Voice)
    (hv : voiceLookup lang = some voice) :
    ((post (googleRequest key voice text)).status_code ≠ 200 →
      GoogleMode.text_to_speech post key text lang =
        .error ⟨.genericExn, "Request failed with status: " ++
          toString (post (googleRequest key voice text)).status_code⟩) ∧
    ((post (googleRequest key voice text)).status_code = 200 →
      jsonLookup (post (googleRequest key voice text)).json "audioContent" = none →
      GoogleMode.text_to_speech post key text lang =
        .error ⟨.genericExn, "audioContent not in the response json"⟩) ∧
    (∀ b64 : String, (post (googleRequest key voice text)).status_code = 200 →
      jsonLookup (post (googleRequest key voice text)).json "audioContent" = some b64 →
      GoogleMode.text_to_speech post key text lang = .ok (b64decode b64)) := by
  refine ⟨?_, ?_, ?_⟩
  · intro hst
    simp only [GoogleMode.text_to_speech]
    rw [hv]
    dsimp only
    rw [if_pos hst]
  · intro hst hj
    simp only [GoogleMode.text_to_speech]
    rw [hv]
    dsimp only
    rw [if_neg (not_not_intro hst), hj]
  · intro b64 hst hj
    simp only [GoogleMode.text_to_speech]
    rw [hv]
    dsimp only
    rw [if_neg (not_not_intro hst), hj]

/-- Claim C4 witness: the three response shapes on concrete sessions. -/
theorem claim_C4_http_response_handling_witness :
    GoogleMode.text_to_speech postStatus500 "k" "hi" "de" =
      .error ⟨.genericExn, "Request failed with status: 500"⟩ ∧
    GoogleMode.text_to_speech postNoAudio "k" "hi" "de" =
      .error ⟨.genericExn, "audioContent not in the response json"⟩ ∧
    GoogleMode.text_to_speech postAudio "k" "hi" "de" = .ok [104, 105] := by
  refine ⟨?_, ?_, ?_⟩
  · have h := (claim_C4_http_response_handling postStatus500 "k" "hi" "de"
      ⟨"de-DE", "de-DE-Wavenet-C"⟩ rfl).1 (by decide)
    rw [h]
    rfl
  · exact (claim_C4_http_response_handling postNoAudio "k" "hi" "de"
      ⟨"de-DE", "de-DE-Wavenet-C"⟩ rfl).2.1 rfl rfl
  · have h := (claim_C4_http_response_handling postAudio "k" "hi" "de"
      ⟨"de-DE", "de-DE-Wavenet-C"⟩ rfl).2.2 "aGk=" rfl rfl
    rw [h]
    rfl

/-- Claim C5: an unmapped language code makes the HTTP backend fail with the
`KeyError` of the table lookup — a `LookupError` subclass — independently of
the session behaviour, and it never returns audio bytes (no silent default
voice). -/
theorem claim_C5_unmapped_language (post : TTSRequest → TTSResponse)
    (key text lang : String) (h : voiceLookup lang = none) :
    GoogleMode.text_to_speech post key text lang = .error ⟨.keyError, lang⟩ ∧
    ExnClass.isLookupError .keyError = true ∧
    ∀ bs : Bytes, GoogleMode.text_to_speech post key text lang ≠ .ok bs := by
  have hmain : GoogleMode.text_to_speech post key text lang =
      .error ⟨.keyError, lang⟩ := by
    simp only [GoogleMode.text_to_speech]
    rw [h]
  refine ⟨hmain, rfl, ?_⟩
  intro bs hc
  rw [hmain] at hc
  cases hc

/-- Claim C5 witness: language `fr` is unmapped; the call fails with
`KeyError` even on a session that would answer successfully. -/
theorem claim_C5_unmapped_language_witness :
    GoogleMode.text_to_speech postAudio "k" "hi" "fr" = .error ⟨.keyError, "fr"⟩ ∧
    GoogleMode.text_to_speech postAudio "k" "hi" "fr" ≠ .ok [104, 105] :=
  ⟨(claim_C5_unmapped_language postAudio "k" "hi" "fr" rfl).1,
   (claim_C5_unmapped_language postAudio "k" "hi" "fr" rfl).2.2 [104, 105]⟩

/-- Claim C1: once the accumulated error count reaches the threshold 3, the
batch stops before attempting further entries — the aborted state has
exactly 3 errors and strictly fewer attempts than the total — and the
process exits non-zero; exit status 0 is equivalent to falling off the end
of the loop (Done); and when the third error occurs on the final entry,
there is no later check, so the run still ends in Done with exit status 0. -/
theorem claim_C1_threshold_abort_and_exit_status :
    (∀ (synth : String → String → Except Exn Bytes)
       (write : String → Bytes → Except Exn Unit) (lang : String)
       (lines : List String) (s : LoopState),
        Mode.run synth write lang lines = .aborted s →
          s.errors = 3 ∧ exitCode (Mode.run synth write lang lines) = 1 ∧
          ∀ es, parseLines lines = .ok es → s.attempted.length < es.length) ∧
    (∀ (synth : String → String → Except Exn Bytes)
       (write : String → Bytes → Except Exn Unit) (lang : String)
       (lines : List String),
        exitCode (Mode.run synth write lang lines) = 0 ↔
          ∃ s, Mode.run synth write lang lines = .done s) ∧
    (∀ (write : String → Bytes → Except Exn Unit) (lang : String) (ex : Exn)
       (e1 e2 e3 : String × String),
        convLoop (fun _ _ => .error ex) write lang [e1, e2, e3] initState =
          .done ⟨3, [e1.1, e2.1, e3.1], []⟩ ∧
        exitCode (convLoop (fun _ _ => .error ex) write lang [e1, e2, e3] initState)
          = 0) := by
  refine ⟨?_, ?_, ?_⟩
  · intro synth write lang lines s h
    have hcode : exitCode (Mode.run synth write lang lines) = 1 := by
      rw [h]
      rfl
    unfold Mode.run at h
    cases hp : parseLines lines with
    | error e =>
      rw [hp] at h
      cases h
    | ok es =>
      rw [hp] at h
      dsimp only at h
      have h1 := convLoop_aborted_inv synth write lang es initState s h
      have h2 := convLoop_errors_le synth write lang es initState (by simp [initState])
      rw [h] at h2
      simp only [Outcome.state] at h2
      have h3 := h1.1
      refine ⟨by omega, hcode, ?_⟩
      intro es2 hp2
      cases hp2
      simpa [initState] using h1.2
  · intro synth write lang lines
    cases h : Mode.run synth write lang lines with
    | done s => simp [exitCode]
    | aborted s => simp [exitCode]
    | uncaught e s => simp [exitCode]
  · intro write lang ex e1 e2 e3
    have hd : convLoop (fun _ _ => .error ex) write lang [e1, e2, e3] initState =
        .done ⟨3, [e1.1, e2.1, e3.1], []⟩ := by
      simp [convLoop, initState]
    exact ⟨hd, by rw [hd]; rfl⟩

/-- Claim C1 witness: an always-failing backend on four entries aborts at
the fourth check with exactly 3 errors, 3 of 4 entries attempted, exit 1. -/
theorem claim_C1_threshold_abort_and_exit_status_witness :
    (⟨3, ["a.mp3", "b.mp3", "c.mp3"], []⟩ : LoopState).errors = 3 ∧
    exitCode (Mode.run synthBoom writeOk "de" ["a|x", "b|y", "c|z", "d|w"]) = 1 ∧
    (⟨3, ["a.mp3", "b.mp3", "c.mp3"], []⟩ : LoopState).attempted.length <
      ([("a.mp3", "x"), ("b.mp3", "y"), ("c.mp3", "z"), ("d.mp3", "w")] :
        List (String × String)).length := by
  obtain ⟨h1, h2, h3⟩ :=
    claim_C1_threshold_abort_and_exit_status.1 synthBoom writeOk "de"
      ["a|x", "b|y", "c|z", "d|w"] ⟨3, ["a.mp3", "b.mp3", "c.mp3"], []⟩ (by decide)
  exact ⟨h1, h2, h3 _ rfl⟩

/-- Claim C8: along the whole run the error counter never exceeds 3; at
every state from which an attempt starts the counter is at most 2 (the
check runs before each attempt), and one attempt raises it by at most one;
the observed trace ends exactly at the final state of the loop. -/
theorem claim_C8_error_counter_invariant
    (synth : String → String → Except Exn Bytes)
    (write : String → Bytes → Except Exn Unit) (lang : String)
    (es : List (String × String)) :
    (∀ t ∈ convTrace synth write lang es initState, t.errors ≤ 3) ∧
    List.Chain'
      (fun a b => a.errors ≤ 2 ∧ a.errors ≤ b.errors ∧ b.errors ≤ a.errors + 1)
      (convTrace synth write lang es initState) ∧
    (convTrace synth write lang es initState).getLast? =
      some (convLoop synth write lang es initState).state :=
  ⟨convTrace_errors_le synth write lang es initState (by simp [initState]),
   convTrace_chain synth write lang es initState,
   convTrace_getLast synth write lang es initState⟩

/-- Claim C8 witness: the final state of an all-failing four-entry run is
observed in the trace and respects the bound. -/
theorem claim_C8_error_counter_invariant_witness :
    (⟨3, ["a.mp3", "b.mp3", "c.mp3"], []⟩ : LoopState).errors ≤ 3 :=
  (claim_C8_error_counter_invariant synthBoom writeOk "de"
      [("a.mp3", "x"), ("b.mp3", "y"), ("c.mp3", "z"), ("d.mp3", "w")]).1
    ⟨3, ["a.mp3", "b.mp3", "c.mp3"], []⟩ (by decide)

/-- Claim C9: the whole input is parsed before any synthesis; a single line
that is non-blank, non-comment and does not split into exactly two parts
raises an uncaught `ValueError`, so the run dies with nothing attempted and
nothing written, wherever the malformed line sits. -/
theorem claim_C9_malformed_line_aborts_before_synthesis
    (synth : String → String → Except Exn Bytes)
    (write : String → Bytes → Except Exn Unit) (lang : String)
    (lines : List String) (h : ∃ l ∈ lines, malformedLine l = true) :
    isValueErrorUncaught (Mode.run synth write lang lines) = true ∧
    (Mode.run synth write lang lines).state.attempted = [] ∧
    (Mode.run synth write lang lines).state.written = [] := by
  obtain ⟨e, he, hcls⟩ := parseLines_malformed lines h
  unfold Mode.run
  rw [he]
  refine ⟨?_, rfl, rfl⟩
  simp [isValueErrorUncaught, hcls]

/-- Claim C9 witness: a malformed second line kills the run before the valid
first entry is ever attempted. -/
theorem claim_C9_malformed_line_aborts_before_synthesis_witness :
    isValueErrorUncaught (Mode.run synthConst writeOk "de" ["foo|Hello", "oops"]) = true ∧
    (Mode.run synthConst writeOk "de" ["foo|Hello", "oops"]).state.attempted = [] ∧
    (Mode.run synthConst writeOk "de" ["foo|Hello", "oops"]).state.written = [] :=
  claim_C9_malformed_line_aborts_before_synthesis synthConst writeOk "de"
    ["foo|Hello", "oops"] ⟨"oops", by decide, by decide⟩

/-- Claim C10: the synthesis step of the loop catches every exception
(whatever its class), counts one error and moves to the next entry; the
write step catches and counts only `IOError`-class exceptions, and any
other write exception propagates, terminating the run — so an uncaught
exception always stems from a non-`IOError` write failure on successfully
synthesized bytes. -/
theorem claim_C10_exception_handling :
    (∀ (synth : String → String → Except Exn Bytes)
       (write : String → Bytes → Except Exn Unit) (lang : String)
       (e : String × String) (rest : List (String × String)) (s : LoopState)
       (ex : Exn),
        ¬ s.errors ≥ 3 → synth e.2 lang = .error ex →
        convLoop synth write lang (e :: rest) s =
          convLoop synth write lang rest
            { s with errors := s.errors + 1, attempted := s.attempted ++ [e.1] }) ∧
    (∀ (synth : String → String → Except Exn Bytes)
       (write : String → Bytes → Except Exn Unit) (lang : String)
       (e : String × String) (rest : List (String × String)) (s : LoopState)
       (mp3 : Bytes) (ex : Exn),
        ¬ s.errors ≥ 3 → synth e.2 lang = .ok mp3 → write e.1 mp3 = .error ex →
        ex.cls = .ioError →
        convLoop synth write lang (e :: rest) s =
          convLoop synth write lang rest
            { s with errors := s.errors + 1, attempted := s.attempted ++ [e.1] }) ∧
    (∀ (synth : String → String → Except Exn Bytes)
       (write : String → Bytes → Except Exn Unit) (lang : String)
       (e : String × String) (rest : List (String × String)) (s : LoopState)
       (mp3 : Bytes) (ex : Exn),
        ¬ s.errors ≥ 3 → synth e.2 lang = .ok mp3 → write e.1 mp3 = .error ex →
        ex.cls ≠ .ioError →
        convLoop synth write lang (e :: rest) s =
          .uncaught ex { s with attempted := s.attempted ++ [e.1] }) ∧
    (∀ (synth : String → String → Except Exn Bytes)
       (write : String → Bytes → Except Exn Unit) (lang : String)
       (es : List (String × String)) (s : LoopState) (ex : Exn) (s' : LoopState),
        convLoop synth write lang es s = .uncaught ex s' →
        ex.cls ≠ .ioError ∧
          ∃ name text mp3, synth text lang = .ok mp3 ∧ write name mp3 = .error ex) := by
  refine ⟨?_, ?_, ?_, ?_⟩
  · intro synth write lang e rest s ex hlt hs
    rw [convLoop, if_neg hlt, hs]
  · intro synth write lang e rest s mp3 ex hlt hs hw hio
    rw [convLoop, if_neg hlt, hs]
    dsimp only
    rw [hw]
    dsimp only
    rw [if_pos hio]
  · intro synth write lang e rest s mp3 ex hlt hs hw hio
    rw [convLoop, if_neg hlt, hs]
    dsimp only
    rw [hw]
    dsimp only
    rw [if_neg hio]
  · intro synth write lang es s ex s' h
    exact convLoop_uncaught_inv synth write lang es s ex s' h

/-- Claim C10 witness: a non-`IOError` write failure on the very first
entry escapes the loop with the synthesis already counted as attempted. -/
theorem claim_C10_exception_handling_witness :
    convLoop synthConst writeTypeErr "de" [("a.mp3", "x")] initState =
      .uncaught ⟨.typeError, "bad write"⟩ ⟨0, ["a.mp3"], []⟩ :=
  claim_C10_exception_handling.2.2.1 synthConst writeTypeErr "de" ("a.mp3", "x")
    [] initState [1, 2, 3] ⟨.typeError, "bad write"⟩ (by decide) rfl rfl (by decide)
